import Mathlib

/-!
Shallow embedding of two modules of the xrmocap repository:

* `xrmocap/human_perception/keypoints_estimation/mediapipe_estimator.py`
  (`MediapipeEstimator`: `infer_single_img`, `infer_array`, `infer_frames`,
  `infer_video`), and
* `xrmocap/data/dataset/bottom_up_mview_mperson_dataset.py`
  (`BottomUpMviewMpersonDataset`: `__getitem__`, `load_perception_2d`).

Numeric scalars (image coordinates, confidences, camera entries) are modelled
as exact rationals; the properties verified here are data-flow and shape
properties, not floating-point rounding facts.  Third-party calls (the
MediaPipe pose model, `cv2.imread`, `video_to_array`, the xrprimer camera
class) and repository code outside the two reviewed files
(`process_index_mapping` and `__len__` from the parent class
`MviewMpersonDataset`, `convert_bottom_up_kps_paf`) are modelled as abstract
parameters or state fields, so every theorem below is quantified over their
behaviour.
-/

set_option linter.unusedVariables false

namespace XrMocap

/-- Python `int(q)` on a number: truncation toward zero. -/
def pyInt (q : ℚ) : ℤ :=
  if q < 0 then -Rat.floor (-q) else Rat.floor q

/-- Normalisation of one end of a Python slice `l[i:j]` on a sequence of
length `n`: negative indices count from the end, and both ends are clamped
into `[0, n]`. -/
def sliceIdx (n : ℕ) (i : ℤ) : ℕ :=
  if i < 0 then (i + n).toNat else min i.toNat n

/-- Length of the Python slice `l[i:j]` on a sequence of length `n`. -/
def sliceLen (n : ℕ) (i j : ℤ) : ℕ :=
  sliceIdx n j - sliceIdx n i

/-- Python slice `l[s:e]` with already-nonnegative bounds. -/
def pySlice {α : Type} (l : List α) (s e : ℕ) : List α :=
  (l.drop s).take (e - s)

/-- A BGR image array: its two leading dimensions and an abstract content
identifier (the claims never inspect pixel values). -/
structure Image where
  height : ℕ
  width : ℕ
  pix : ℕ
deriving DecidableEq

/-- A detected human bounding box `bbox_xyxy` with a score at last:
`[x1, y1, x2, y2, score]`, with `bbox[4]` being the score. -/
structure Bbox where
  x1 : ℚ
  y1 : ℚ
  x2 : ℚ
  y2 : ℚ
  score : ℚ
deriving DecidableEq

/-- The five values of a bbox in their Python list order. -/
def Bbox.toList (b : Bbox) : List ℚ :=
  [b.x1, b.y1, b.x2, b.y2, b.score]

/-- One normalized landmark returned by the MediaPipe pose model. -/
structure Landmark where
  x : ℚ
  y : ℚ
  visibility : ℚ
deriving DecidableEq

/-- Height of the numpy crop `img_arr[int(bbox[1]):int(bbox[3]), ...]`,
following numpy slice clamping. -/
def cropHeight (img : Image) (b : Bbox) : ℕ :=
  sliceLen img.height (pyInt b.y1) (pyInt b.y2)

/-- Width of the numpy crop `img_arr[..., int(bbox[0]):int(bbox[2])]`,
following numpy slice clamping. -/
def cropWidth (img : Image) (b : Bbox) : ℕ :=
  sliceLen img.width (pyInt b.x1) (pyInt b.x2)

/-- The `MediapipeEstimator` object.  `process img b` models the external
call `self.pose_model.process(...)` applied to the crop of `img` selected by
`b` (the crop is a pure function of the image and the bbox, so the oracle is
parametrised by both); it returns `none` when no pose landmarks are
detected.  `bbox_thr` and `convention` are the attributes set in
`__init__`. -/
structure MediapipeEstimator where
  process : Image → Bbox → Option (List Landmark)
  bbox_thr : ℚ
  convention : String

/-- `MediapipeEstimator.__init__`: stores the pose model and the bbox
threshold, and sets `self.convention = 'mediapipe_body'`. -/
def mkMediapipeEstimator (process : Image → Bbox → Option (List Landmark))
    (bbox_thr : ℚ) : MediapipeEstimator :=
  ⟨process, bbox_thr, "mediapipe_body"⟩

/-- `MediapipeEstimator.get_keypoints_convention_name`. -/
def MediapipeEstimator.get_keypoints_convention_name
    (e : MediapipeEstimator) : String :=
  e.convention

/-- Modelled from the spec: `get_keypoint_num` of
`xrmocap.transform.convention.keypoints_convention` is not among the
reviewed sources; per the spec a keypoints convention is "a named schema
mapping joint indices to body landmarks", and the `mediapipe_body`
convention enumerates the 33 pose landmarks of MediaPipe.  The claims only
use this value abstractly. -/
def get_keypoint_num (convention : String) : ℕ :=
  if convention = "mediapipe_body" then 33 else 0

/-- One keypoint as built by `infer_single_img`: `(x, y, confidence)`. -/
abbrev Kp2d : Type := ℚ × ℚ × ℚ

/-- The rescaling applied to the landmarks of one crop:
`[landmark.x * img.shape[1] + bbox[0], landmark.y * img.shape[0] + bbox[1],
landmark.visibility]` for each landmark, where `img` is the crop. -/
def rescaled (img : Image) (b : Bbox) (lms : List Landmark) : List Kp2d :=
  lms.map (fun lm =>
    (lm.x * (cropWidth img b : ℚ) + b.x1,
     lm.y * (cropHeight img b : ℚ) + b.y1,
     lm.visibility))

/-- One person result of `infer_single_img`:
`dict(bbox=bbox, keypoints=kps2d)`. -/
structure PersonResult where
  bbox : Bbox
  keypoints : List Kp2d
deriving DecidableEq

/-- `MediapipeEstimator.infer_single_img`: for each bbox, if its score
exceeds `self.bbox_thr` the pose model runs on the crop; when it returns
landmarks they are rescaled into full-image coordinates and appended,
otherwise the bbox contributes nothing.  (The `id` field of the bbox dicts
built by `infer_array` is never read and is dropped from the model.) -/
def infer_single_img (est : MediapipeEstimator) (imgArr : Image) :
    List Bbox → List PersonResult
  | [] => []
  | b :: rest =>
    let kps2d : Option (List Kp2d) :=
      if b.score > est.bbox_thr then
        match est.process imgArr b with
        | some lms => some (rescaled imgArr b lms)
        | none => none
      else none
    match kps2d with
    | some k => ⟨b, k⟩ :: infer_single_img est imgArr rest
    | none => infer_single_img est imgArr rest

/-- A zero keypoint row: one row of `np.zeros((n_human, n_kps, 3))`. -/
def zeroKps (nKps : ℕ) : List Kp2d :=
  List.replicate nKps (0, 0, 0)

/-- A zero bbox: one row of `np.zeros((n_human, 5))`. -/
def zeroBbox : Bbox :=
  ⟨0, 0, 0, 0, 0⟩

/-- The assignment loop of `infer_array`:
`for idx, person_dict in enumerate(pose_results): frame_bbox_results[idx] =
bbox; frame_kps_results[idx] = keypoints`. -/
def assignRows : List (List Kp2d) → List Bbox → List PersonResult → ℕ →
    List (List Kp2d) × List Bbox
  | kps, bxs, [], _ => (kps, bxs)
  | kps, bxs, r :: rest, idx =>
    assignRows (kps.set idx r.keypoints) (bxs.set idx r.bbox) rest (idx + 1)

/-- The per-frame body of `infer_array`: filter bboxes by `bbox[4] > 0.0`;
if any pass, run `infer_single_img` and scatter the results into zero
arrays of shapes `(n_human, n_kps, 3)` and `(n_human, 5)`; otherwise both
per-frame results are empty lists. -/
def inferArrayFrame (est : MediapipeEstimator) (nKps : ℕ) (imgArr : Image)
    (bboxes : List Bbox) : List (List Kp2d) × List Bbox :=
  let bboxesInFrame := bboxes.filter (fun b => b.score > 0)
  if bboxesInFrame.length > 0 then
    let poseResults := infer_single_img est imgArr bboxesInFrame
    assignRows (List.replicate bboxes.length (zeroKps nKps))
      (List.replicate bboxes.length zeroBbox) poseResults 0
  else ([], [])

/-- `MediapipeEstimator.infer_array`.  The `tqdm` progress bar and its
`disable_tqdm` switch have no effect on the data and are omitted;
`return_heatmap` is kept because the claims mention it.  The source returns
`ret_kps_list, None, ret_bbox_list`. -/
def infer_array (est : MediapipeEstimator) (imageArray : List Image)
    (bboxList : List (List Bbox)) (returnHeatmap : Bool) :
    List (List (List Kp2d)) × Option Unit × List (List Bbox) :=
  let nKps := get_keypoint_num est.get_keypoints_convention_name
  let per := (imageArray.zip bboxList).map
    (fun p => inferArrayFrame est nKps p.1 p.2)
  (per.map Prod.fst, none, per.map Prod.snd)

/-- Python exception classes raised by the modelled code paths. -/
inductive PyError where
  | stopIteration
  | valueError
  | fileNotFound
  | keyError
  | attributeError
deriving DecidableEq

/-- The chunk start indices `range(0, n, b)` of `infer_frames` (defined for
`b >= 1`; the `b = 0` `ValueError` of Python `range` is handled by the
caller). -/
def chunkStarts (n b : ℕ) : List ℕ :=
  (List.range ((n + b - 1) / b)).map (fun i => i * b)

/-- `MediapipeEstimator.infer_frames`.  `imread` models `cv2.imread`; the
logger call has no effect on data.  When the effective batch size is zero
(`load_batch_size=None` with an empty frame list, or `load_batch_size=0`),
Python `range(0, n, 0)` raises `ValueError`. -/
def infer_frames (est : MediapipeEstimator) (imread : String → Image)
    (framePathList : List String) (bboxList : List (List Bbox))
    (returnHeatmap : Bool) (loadBatchSize : Option ℕ) :
    Except PyError
      (List (List (List Kp2d)) × Option Unit × List (List Bbox)) :=
  let n := framePathList.length
  let b := loadBatchSize.getD n
  if b = 0 then .error .valueError else
  let batches := (chunkStarts n b).map (fun startIdx =>
    let endIdx := min n (startIdx + b)
    let imageArrayList := (pySlice framePathList startIdx endIdx).map imread
    infer_array est imageArrayList (pySlice bboxList startIdx endIdx) false)
  .ok ((batches.map (fun t => t.1)).flatten, none,
       (batches.map (fun t => t.2.2)).flatten)

/-- `MediapipeEstimator.infer_video`.  `videoToArray` models
`xrprimer.utils.ffmpeg_utils.video_to_array`. -/
def infer_video (est : MediapipeEstimator) (videoToArray : String → List Image)
    (videoPath : String) (bboxList : List (List Bbox))
    (returnHeatmap : Bool) :
    List (List (List Kp2d)) × Option Unit × List (List Bbox) :=
  let imageArray := videoToArray videoPath
  let r := infer_array est imageArray bboxList false
  (r.1, none, r.2.2)

/-- The work done by `infer_array` on one frame path with its bboxes: read
the image and run the per-frame inference body. -/
def frameFn (est : MediapipeEstimator) (imread : String → Image)
    (p : String × List Bbox) : List (List Kp2d) × List Bbox :=
  inferArrayFrame est (get_keypoint_num est.get_keypoints_convention_name)
    (imread p.1) p.2

/-- `os.path.join` on the paths occurring here (plain relative components,
no absolute-path override). -/
def osPathJoin (a b : String) : String :=
  a ++ "/" ++ b

/-- A torch tensor, modelled by its shape together with its flattened
rational entries. -/
structure TorchTensor where
  shape : List ℕ
  data : List ℚ
deriving DecidableEq

instance : Inhabited TorchTensor := ⟨⟨[], []⟩⟩

/-- `torch.tensor` applied to a flat list (such as a camera translation):
a tensor of shape `[len]`. -/
def torchTensorOfVec (v : List ℚ) : TorchTensor :=
  ⟨[v.length], v⟩

/-- `torch.tensor` applied to a matrix given as rows (such as a camera
rotation or intrinsic matrix): a tensor of shape `[rows, cols]`. -/
def torchTensorOfMat (m : List (List ℚ)) : TorchTensor :=
  ⟨[m.length, (m.headD []).length], m.flatten⟩

/-- `torch.stack` on a list of equal-shaped tensors: prepends the list
length to the shape.  (torch raises on an empty list or unequal shapes;
every use below is guarded by those conditions.) -/
def torchStack (ts : List TorchTensor) : TorchTensor :=
  ⟨ts.length :: (ts.headD default).shape, (ts.map (fun t => t.data)).flatten⟩

/-- An xrprimer `FisheyeCameraParameter` as consumed by the reviewed code:
image extent, `get_intrinsic(k_dim)` (a `k_dim x k_dim` matrix),
`get_extrinsic_r()` (the 3x3 rotation), and `get_extrinsic_t()` (the
camera translation, a vector of exactly 3 components — hence the triple
type). -/
structure FisheyeParameter where
  width : ℕ
  height : ℕ
  intrinsic : ℕ → List (List ℚ)
  extrR : List (List ℚ)
  extrT : ℚ × ℚ × ℚ

instance : Inhabited FisheyeParameter :=
  ⟨⟨0, 0, fun _ => [], [], (0, 0, 0)⟩⟩

/-- The tensor `torch.tensor(fisheye_param.get_extrinsic_t())`. -/
def extrinsicTTensor (fp : FisheyeParameter) : TorchTensor :=
  torchTensorOfVec [fp.extrT.1, fp.extrT.2.1, fp.extrT.2.2]

/-- One bottom-up detection record of a frame: per-joint candidate arrays
(each candidate a row of coordinates/score columns) and the part-affinity
score matrices. -/
structure Detection where
  joints : List (List (List ℚ))
  pafs : List (List (List ℚ))
deriving DecidableEq

instance : Inhabited Detection := ⟨⟨[], []⟩⟩

/-- The parsed content of one `kps2d_paf.json` file; a key maps to `none`
when it is absent from the JSON object (Python then raises `KeyError`). -/
structure Kps2dPafJson where
  convention : Option String
  data : Option (List (List Detection))

/-- The file path `os.path.join(meta_path, f'scene_{i}', "kps2d_paf.json")`
opened by `load_perception_2d` for scene `i`. -/
def scenePath (metaPath : String) (i : ℕ) : String :=
  osPathJoin (osPathJoin metaPath ("scene_" ++ toString i)) "kps2d_paf.json"

/-- Opening and reading one scene file: a missing file raises
`FileNotFoundError`; a missing `convention` or `data` key raises
`KeyError`. -/
def readSceneFile (fs : String → Option Kps2dPafJson) (metaPath : String)
    (i : ℕ) : Except PyError (String × List (List Detection)) :=
  match fs (scenePath metaPath i) with
  | none => .error .fileNotFound
  | some j =>
    match j.convention with
    | none => .error .keyError
    | some conv =>
      match j.data with
      | none => .error .keyError
      | some d => .ok (conv, d)

/-- Whether scene `i` can be read without an exception: its file exists and
holds both the `convention` and the `data` key. -/
def sceneFileOk (fs : String → Option Kps2dPafJson) (metaPath : String)
    (i : ℕ) : Bool :=
  match fs (scenePath metaPath i) with
  | none => false
  | some j => j.convention.isSome && j.data.isSome

/-- The library exception `load_perception_2d` raises at scene `i` when the
scene cannot be read. -/
def sceneLibError (fs : String → Option Kps2dPafJson) (metaPath : String)
    (i : ℕ) : PyError :=
  match fs (scenePath metaPath i) with
  | none => .fileNotFound
  | some _ => .keyError

/-- The in-place update of one candidate row by the resize step:
column 0 is multiplied by `img_size[0] - 1` (width minus one), then
column 1 by `img_size[1] - 1` (height minus one). -/
def resizeRow (w h : ℕ) (row : List ℚ) : List ℚ :=
  let r0 := row.set 0 (row.getD 0 0 * ((w : ℚ) - 1))
  r0.set 1 (r0.getD 1 0 * ((h : ℚ) - 1))

/-- The resize of one per-joint candidate array: guarded by
`len(...) > 0`, every row has its first two columns scaled. -/
def resizeJointArray (w h : ℕ) (arr : List (List ℚ)) : List (List ℚ) :=
  if arr.length > 0 then arr.map (resizeRow w h) else arr

/-- The resize of one converted detection record: only the `joints` entry
is touched, the `pafs` entry is untouched. -/
def resizeDetection (w h : ℕ) (d : Detection) : Detection :=
  ⟨d.joints.map (resizeJointArray w h), d.pafs⟩

/-- The resize loop of `load_perception_2d`:
`for frame_id in range(len(detections))` mutates
`convert_detections[frame_id]` in place (frames beyond `nDet` are left
as-is). -/
def resizeStep (w h : ℕ) (nDet : ℕ) (convertDetections : List Detection) :
    List Detection :=
  convertDetections.mapIdx
    (fun frameId d => if frameId < nDet then resizeDetection w h d else d)

/-- One view of one scene in `load_perception_2d`: read the fisheye image
size, convert the detections between conventions (`convert` models
`convert_bottom_up_kps_paf`, repository code outside the reviewed files,
kept abstract), then resize. -/
def processScene (convert : List Detection → String → String → List Detection)
    (kps2dConvention : String) (params : List FisheyeParameter)
    (srcConvention : String) (multiDetections : List (List Detection)) :
    List (List Detection) :=
  let nViews := multiDetections.length
  (List.range nViews).map (fun viewIdx =>
    let fp := params.getD viewIdx default
    let detections := multiDetections.getD viewIdx []
    let convertDetections := convert detections srcConvention kps2dConvention
    resizeStep fp.width fp.height detections.length convertDetections)

/-- The state of a `BottomUpMviewMpersonDataset` object, as read by the two
reviewed methods.  `len`, `processIndexMapping`, `imageList`,
`fisheyeParams`, `gt3d` and `imgPipeline` are populated by the parent class
`MviewMpersonDataset` (outside the reviewed files) and are therefore
abstract data here.  `percepKeypoints2d` is `none` while the attribute is
unset. -/
structure DatasetState where
  dataRoot : String
  metaPath : String
  kps2dConvention : String
  shuffled : Bool
  camKDim : ℕ
  nScene : ℕ
  nViews : ℕ
  len : ℕ
  processIndexMapping : ℕ → ℕ × ℕ × Bool
  imageList : List (List (List String))
  fisheyeParams : List (List FisheyeParameter)
  gt3d : List (List TorchTensor)
  imgPipeline : String → TorchTensor
  percepKeypoints2d : Option (List (List (List Detection)))

/-- The inner loop of `load_perception_2d` over the scene indices,
threading the `self.n_views` attribute (which is overwritten per scene
before any per-view work): the first library exception aborts the whole
method. -/
def loadScenesGo (fs : String → Option Kps2dPafJson)
    (convert : List Detection → String → String → List Detection)
    (s : DatasetState) :
    List ℕ → ℕ → ℕ × Except PyError (List (List (List Detection)))
  | [], nViews => (nViews, .ok [])
  | i :: rest, nViews =>
    match readSceneFile fs s.metaPath i with
    | .error e => (nViews, .error e)
    | .ok (srcConv, multiDet) =>
      let nv := multiDet.length
      let scene := processScene convert s.kps2dConvention
        (s.fisheyeParams.getD i []) srcConv multiDet
      match loadScenesGo fs convert s rest nv with
      | (nv2, .error e) => (nv2, .error e)
      | (nv2, .ok lst) => (nv2, .ok (scene :: lst))

/-- `BottomUpMviewMpersonDataset.load_perception_2d`: iterates the scenes;
on success assigns `self.percep_keypoints2d`; a library exception
propagates to the caller and the assignment never runs (`self.n_views`,
however, keeps the value from the last successfully read scene). -/
def load_perception_2d (fs : String → Option Kps2dPafJson)
    (convert : List Detection → String → String → List Detection)
    (s : DatasetState) : DatasetState × Option PyError :=
  match loadScenesGo fs convert s (List.range s.nScene) s.nViews with
  | (nv, .error e) => ({ s with nViews := nv }, some e)
  | (nv, .ok lst) =>
    ({ s with nViews := nv, percepKeypoints2d := some lst }, none)

/-- The tuple returned by `BottomUpMviewMpersonDataset.__getitem__`. -/
structure GetItemResult where
  mviewImgTensor : TorchTensor
  kTensor : TorchTensor
  rTensor : TorchTensor
  tTensor : TorchTensor
  kps3d : TorchTensor
  endOfClip : Bool
  kwData : List Detection

/-- `BottomUpMviewMpersonDataset.__getitem__`.  `index >= len(self)` raises
`StopIteration`; reading `self.percep_keypoints2d` before
`load_perception_2d` ever succeeded raises `AttributeError`.  Elsewhere the
method is a pure computation over the dataset state. -/
def getitem (s : DatasetState) (index : ℕ) : Except PyError GetItemResult :=
  if index ≥ s.len then .error .stopIteration else
  match s.percepKeypoints2d with
  | none => .error .attributeError
  | some percep =>
    let m := s.processIndexMapping index
    let sceneIdx := m.1
    let frameIdx := m.2.1
    let imgPaths := (s.imageList.getD sceneIdx []).getD frameIdx []
    let mviewImgTensor := torchStack
      (imgPaths.map (fun p => s.imgPipeline (osPathJoin s.dataRoot p)))
    let params := s.fisheyeParams.getD sceneIdx []
    let kTensor := torchStack
      (params.map (fun fp => torchTensorOfMat (fp.intrinsic s.camKDim)))
    let rTensor := torchStack
      (params.map (fun fp => torchTensorOfMat fp.extrR))
    let tTensor := torchStack (params.map extrinsicTTensor)
    let kps3d := (s.gt3d.getD sceneIdx []).getD frameIdx default
    let endOfClip := m.2.2 && !s.shuffled
    let mviewKeypoints2dList := percep.getD sceneIdx []
    let nView := mviewImgTensor.shape.headD 0
    let kwData := (List.range nView).map
      (fun viewIdx => (mviewKeypoints2dList.getD viewIdx []).getD frameIdx default)
    .ok ⟨mviewImgTensor, kTensor, rTensor, tTensor, kps3d, endOfClip, kwData⟩

/-! Concrete sample objects used to evaluate the definitions on explicit
inputs. -/

/-- A sample 10 x 10 image. -/
def sampleImage : Image :=
  ⟨10, 10, 0⟩

/-- A sample bbox covering `[0,4) x [0,4)` with score 1. -/
def sampleBbox : Bbox :=
  ⟨0, 0, 4, 4, 1⟩

/-- An estimator whose pose model never detects landmarks. -/
def estNone : MediapipeEstimator :=
  mkMediapipeEstimator (fun _ _ => none) 0

/-- An estimator whose pose model always returns 33 landmarks. -/
def est33 : MediapipeEstimator :=
  mkMediapipeEstimator (fun _ _ => some (List.replicate 33 ⟨0, 0, 1⟩)) 0

/-- An estimator whose pose model always returns one centred landmark. -/
def estOne : MediapipeEstimator :=
  mkMediapipeEstimator (fun _ _ => some [⟨1/2, 1/2, 1⟩]) 0

/-- A sample `cv2.imread` model. -/
def sampleImread : String → Image :=
  fun _ => sampleImage

/-- A filesystem with no files at all. -/
def emptyFs : String → Option Kps2dPafJson :=
  fun _ => none

/-- A convention conversion that keeps records unchanged (a sample value of
the abstract `convert_bottom_up_kps_paf` parameter). -/
def convertId : List Detection → String → String → List Detection :=
  fun d _ _ => d

/-- A sample detection record with one joint class holding one candidate. -/
def sampleDetection : Detection :=
  ⟨[[[1, 2, 7]]], [[[9]]]⟩

/-- A sample dataset state: one scene with one frame seen by one camera,
sequential order (not shuffled), with the perception attribute loaded. -/
def sampleDataset : DatasetState where
  dataRoot := "data"
  metaPath := "meta"
  kps2dConvention := "fourdag19"
  shuffled := false
  camKDim := 3
  nScene := 1
  nViews := 1
  len := 1
  processIndexMapping := fun _ => (0, 0, true)
  imageList := [[["cam0/f0.png"]]]
  fisheyeParams := [[⟨1920, 1080, fun _ => [[1, 0, 0], [0, 1, 0], [0, 0, 1]],
    [[1, 0, 0], [0, 1, 0], [0, 0, 1]], (0, 0, 0)⟩]]
  gt3d := [[⟨[1, 1, 4], List.replicate 4 0⟩]]
  imgPipeline := fun _ => ⟨[3, 2, 2], List.replicate 12 0⟩
  percepKeypoints2d := some [[[sampleDetection]]]

/-! Helper lemmas about the embedded operations. -/

theorem zipGetElemSome {α β : Type} (l₁ : List α) (l₂ : List β) :
    ∀ (i : ℕ) (a : α) (b : β), l₁[i]? = some a → l₂[i]? = some b →
    (l₁.zip l₂)[i]? = some (a, b) := by
  induction l₁ generalizing l₂ with
  | nil => intro i a b h _; simp at h
  | cons x xs ih =>
    intro i a b h₁ h₂
    cases l₂ with
    | nil => simp at h₂
    | cons y ys =>
      cases i with
      | zero => simp_all
      | succ n =>
        simp only [List.zip_cons_cons, List.getElem?_cons_succ] at *
        exact ih ys n a b h₁ h₂

theorem zipTake {α β : Type} (l₁ : List α) (l₂ : List β) :
    ∀ k, (l₁.take k).zip (l₂.take k) = (l₁.zip l₂).take k := by
  induction l₁ generalizing l₂ with
  | nil => intro k; simp
  | cons x xs ih =>
    intro k
    cases l₂ with
    | nil => simp
    | cons y ys =>
      cases k with
      | zero => simp
      | succ n => simp [List.zip_cons_cons, ih ys n]

theorem zipDrop {α β : Type} (l₁ : List α) (l₂ : List β) :
    ∀ k, (l₁.drop k).zip (l₂.drop k) = (l₁.zip l₂).drop k := by
  induction l₁ generalizing l₂ with
  | nil => intro k; simp
  | cons x xs ih =>
    intro k
    cases l₂ with
    | nil => simp
    | cons y ys =>
      cases k with
      | zero => simp
      | succ n => simp [List.zip_cons_cons, ih ys n]

theorem takeMinSelf {α : Type} (l : List α) (k : ℕ) :
    l.take (min l.length k) = l.take k := by
  rcases Nat.le_total l.length k with h | h
  · rw [min_eq_left h, List.take_length, List.take_of_length_le h]
  · rw [min_eq_right h]

theorem pySliceMin {α : Type} (L : List α) (s b : ℕ) :
    pySlice L s (min L.length (s + b)) = (L.drop s).take b := by
  unfold pySlice
  have h : min L.length (s + b) - s = min (L.length - s) b := by omega
  rw [h, ← List.length_drop s L]
  exact takeMinSelf _ _

theorem rangeChunksTake {α : Type} (L : List α) (b : ℕ) :
    ∀ m, ((List.range m).map (fun i => (L.drop (i * b)).take b)).flatten
      = L.take (m * b) := by
  intro m
  induction m with
  | zero => simp
  | succ k ih =>
    rw [List.range_succ, List.map_append, List.flatten_append, ih]
    simp [Nat.succ_mul, List.take_add]

theorem chunksFlattenOfLength {α : Type} (L : List α) (n b : ℕ)
    (hL : L.length = n) (hb : 1 ≤ b) :
    ((chunkStarts n b).map (fun s => (L.drop s).take b)).flatten = L := by
  unfold chunkStarts
  rw [List.map_map]
  have hcomp : ((fun s => (L.drop s).take b) ∘ fun i => i * b)
      = fun i => (L.drop (i * b)).take b := rfl
  rw [hcomp, rangeChunksTake]
  apply List.take_of_length_le
  rw [hL, Nat.mul_comm]
  have h1 := Nat.div_add_mod (n + b - 1) b
  have h2 : (n + b - 1) % b < b := Nat.mod_lt _ (by omega)
  generalize hq : b * ((n + b - 1) / b) = p at h1 ⊢
  generalize hr : (n + b - 1) % b = r at h1 h2
  omega

theorem assignRows_length :
    ∀ (rs : List PersonResult) (kps : List (List Kp2d)) (bxs : List Bbox)
      (idx : ℕ),
    (assignRows kps bxs rs idx).1.length = kps.length ∧
    (assignRows kps bxs rs idx).2.length = bxs.length := by
  intro rs
  induction rs with
  | nil => intro kps bxs idx; exact ⟨rfl, rfl⟩
  | cons r rest ih =>
    intro kps bxs idx
    simpa [assignRows, List.length_set] using
      ih (kps.set idx r.keypoints) (bxs.set idx r.bbox) (idx + 1)

theorem assignRows_getElem?_ge :
    ∀ (rs : List PersonResult) (kps : List (List Kp2d)) (bxs : List Bbox)
      (idx j : ℕ), idx + rs.length ≤ j →
    (assignRows kps bxs rs idx).1[j]? = kps[j]? ∧
    (assignRows kps bxs rs idx).2[j]? = bxs[j]? := by
  intro rs
  induction rs with
  | nil => intro kps bxs idx j _; exact ⟨rfl, rfl⟩
  | cons r rest ih =>
    intro kps bxs idx j h
    simp only [List.length_cons] at h
    have h2 : idx + 1 + rest.length ≤ j := by omega
    have h3 := ih (kps.set idx r.keypoints) (bxs.set idx r.bbox) (idx + 1) j h2
    simp only [assignRows]
    rw [h3.1, h3.2, List.getElem?_set_ne (by omega),
      List.getElem?_set_ne (by omega)]
    exact ⟨rfl, rfl⟩

theorem assignRows_mem_fst :
    ∀ (rs : List PersonResult) (kps : List (List Kp2d)) (bxs : List Bbox)
      (idx : ℕ) (row : List Kp2d), row ∈ (assignRows kps bxs rs idx).1 →
    row ∈ kps ∨ ∃ r ∈ rs, row = r.keypoints := by
  intro rs
  induction rs with
  | nil => intro kps bxs idx row h; exact Or.inl h
  | cons r rest ih =>
    intro kps bxs idx row h
    rcases ih _ _ _ _ h with h2 | ⟨r2, hr2, he⟩
    · rcases List.mem_or_eq_of_mem_set h2 with h3 | h3
      · exact Or.inl h3
      · exact Or.inr ⟨r, List.mem_cons_self r rest, h3⟩
    · exact Or.inr ⟨r2, List.mem_cons_of_mem r hr2, he⟩

theorem infer_single_img_cons_pos (est : MediapipeEstimator) (imgArr : Image)
    (x : Bbox) (xs : List Bbox) (lms : List Landmark)
    (hs : x.score > est.bbox_thr) (hp : est.process imgArr x = some lms) :
    infer_single_img est imgArr (x :: xs)
      = ⟨x, rescaled imgArr x lms⟩ :: infer_single_img est imgArr xs := by
  simp [infer_single_img, hs, hp]

theorem infer_single_img_cons_neg_score (est : MediapipeEstimator)
    (imgArr : Image) (x : Bbox) (xs : List Bbox)
    (hs : ¬ x.score > est.bbox_thr) :
    infer_single_img est imgArr (x :: xs) = infer_single_img est imgArr xs := by
  simp [infer_single_img, hs]

theorem infer_single_img_cons_none (est : MediapipeEstimator) (imgArr : Image)
    (x : Bbox) (xs : List Bbox) (hp : est.process imgArr x = none) :
    infer_single_img est imgArr (x :: xs) = infer_single_img est imgArr xs := by
  by_cases hs : x.score > est.bbox_thr <;> simp [infer_single_img, hs, hp]

theorem infer_single_img_mem_intro (est : MediapipeEstimator)
    (imgArr : Image) :
    ∀ (bl : List Bbox) (b : Bbox) (lms : List Landmark), b ∈ bl →
    b.score > est.bbox_thr → est.process imgArr b = some lms →
    (⟨b, rescaled imgArr b lms⟩ : PersonResult)
      ∈ infer_single_img est imgArr bl := by
  intro bl
  induction bl with
  | nil => intro b lms h _ _; simp at h
  | cons x xs ih =>
    intro b lms hmem hscore hproc
    rcases List.mem_cons.mp hmem with rfl | hmem2
    · rw [infer_single_img_cons_pos est imgArr b xs lms hscore hproc]
      exact List.mem_cons_self _ _
    · by_cases hs : x.score > est.bbox_thr
      · cases hp : est.process imgArr x with
        | none =>
          rw [infer_single_img_cons_none est imgArr x xs hp]
          exact ih b lms hmem2 hscore hproc
        | some lms2 =>
          rw [infer_single_img_cons_pos est imgArr x xs lms2 hs hp]
          exact List.mem_cons_of_mem _ (ih b lms hmem2 hscore hproc)
      · rw [infer_single_img_cons_neg_score est imgArr x xs hs]
        exact ih b lms hmem2 hscore hproc

theorem infer_single_img_mem_elim (est : MediapipeEstimator) (imgArr : Image) :
    ∀ (bl : List Bbox) (p : PersonResult), p ∈ infer_single_img est imgArr bl →
    p.bbox ∈ bl ∧ p.bbox.score > est.bbox_thr ∧
    ∃ lms, est.process imgArr p.bbox = some lms ∧
      p.keypoints = rescaled imgArr p.bbox lms := by
  intro bl
  induction bl with
  | nil => intro p h; simp [infer_single_img] at h
  | cons x xs ih =>
    intro p h
    by_cases hs : x.score > est.bbox_thr
    · cases hp : est.process imgArr x with
      | none =>
        rw [infer_single_img_cons_none est imgArr x xs hp] at h
        have h2 := ih p h
        exact ⟨List.mem_cons_of_mem x h2.1, h2.2⟩
      | some lms =>
        rw [infer_single_img_cons_pos est imgArr x xs lms hs hp] at h
        rcases List.mem_cons.mp h with rfl | h2
        · exact ⟨List.mem_cons_self _ _, hs, lms, hp, rfl⟩
        · have h3 := ih p h2
          exact ⟨List.mem_cons_of_mem x h3.1, h3.2⟩
    · rw [infer_single_img_cons_neg_score est imgArr x xs hs] at h
      have h2 := ih p h
      exact ⟨List.mem_cons_of_mem x h2.1, h2.2⟩

theorem inferArrayComponents (est : MediapipeEstimator)
    (imageArray : List Image) (bboxList : List (List Bbox))
    (returnHeatmap : Bool) (i : ℕ) (img : Image) (bxs : List Bbox)
    (hi : imageArray[i]? = some img) (hb : bboxList[i]? = some bxs) :
    (infer_array est imageArray bboxList returnHeatmap).1[i]?
      = some (inferArrayFrame est
          (get_keypoint_num est.get_keypoints_convention_name) img bxs).1 ∧
    (infer_array est imageArray bboxList returnHeatmap).2.2[i]?
      = some (inferArrayFrame est
          (get_keypoint_num est.get_keypoints_convention_name) img bxs).2 := by
  have hz := zipGetElemSome imageArray bboxList i img bxs hi hb
  constructor <;> simp [infer_array, List.getElem?_map, hz]

theorem readSceneFile_of_fileOk (fs : String → Option Kps2dPafJson)
    (mp : String) (i : ℕ) (h : sceneFileOk fs mp i = true) :
    ∃ v, readSceneFile fs mp i = .ok v := by
  cases hf : fs (scenePath mp i) with
  | none => simp [sceneFileOk, hf] at h
  | some j =>
    simp only [sceneFileOk, hf, Bool.and_eq_true] at h
    obtain ⟨c, hc⟩ := Option.isSome_iff_exists.mp h.1
    obtain ⟨d, hd⟩ := Option.isSome_iff_exists.mp h.2
    exact ⟨(c, d), by simp [readSceneFile, hf, hc, hd]⟩

theorem readSceneFile_of_fileBad (fs : String → Option Kps2dPafJson)
    (mp : String) (i : ℕ) (h : sceneFileOk fs mp i = false) :
    readSceneFile fs mp i = .error (sceneLibError fs mp i) := by
  cases hf : fs (scenePath mp i) with
  | none => simp [readSceneFile, sceneLibError, hf]
  | some j =>
    cases hc : j.convention with
    | none => simp [readSceneFile, sceneLibError, hf, hc]
    | some c =>
      cases hd : j.data with
      | none => simp [readSceneFile, sceneLibError, hf, hc, hd]
      | some d => simp [sceneFileOk, hf, hc, hd] at h

theorem loadScenesGo_isOk (fs : String → Option Kps2dPafJson)
    (conv : List Detection → String → String → List Detection)
    (s : DatasetState) :
    ∀ (idxs : List ℕ) (nv : ℕ),
    (loadScenesGo fs conv s idxs nv).2.isOk
      = idxs.all (fun i => sceneFileOk fs s.metaPath i) := by
  intro idxs
  induction idxs with
  | nil => intro nv; rfl
  | cons i rest ih =>
    intro nv
    by_cases hok : sceneFileOk fs s.metaPath i = true
    · obtain ⟨⟨sc, md⟩, hv⟩ := readSceneFile_of_fileOk fs s.metaPath i hok
      simp only [loadScenesGo, hv, List.all_cons, hok, Bool.true_and]
      rcases hgo : loadScenesGo fs conv s rest md.length with ⟨nv2, res⟩
      have ih2 := ih md.length
      rw [hgo] at ih2
      cases res <;> simpa [Except.isOk] using ih2
    · have hbad : sceneFileOk fs s.metaPath i = false := by
        cases h2 : sceneFileOk fs s.metaPath i
        · rfl
        · exact absurd h2 hok
      simp only [loadScenesGo, readSceneFile_of_fileBad fs s.metaPath i hbad,
        List.all_cons, hbad, Bool.false_and]
      rfl

theorem loadScenesGo_error_first (fs : String → Option Kps2dPafJson)
    (conv : List Detection → String → String → List Detection)
    (s : DatasetState) :
    ∀ (pre : List ℕ) (i : ℕ) (post : List ℕ) (nv : ℕ),
    (∀ k ∈ pre, sceneFileOk fs s.metaPath k = true) →
    sceneFileOk fs s.metaPath i = false →
    (loadScenesGo fs conv s (pre ++ i :: post) nv).2
      = .error (sceneLibError fs s.metaPath i) := by
  intro pre
  induction pre with
  | nil =>
    intro i post nv _ hbad
    simp only [List.nil_append, loadScenesGo,
      readSceneFile_of_fileBad fs s.metaPath i hbad]
  | cons p pre2 ih =>
    intro i post nv hpre hbad
    have hp : sceneFileOk fs s.metaPath p = true :=
      hpre p (List.mem_cons_self _ _)
    obtain ⟨⟨sc, md⟩, hv⟩ := readSceneFile_of_fileOk fs s.metaPath p hp
    simp only [List.cons_append, loadScenesGo, hv]
    have ih2 := ih i post md.length
      (fun k hk => hpre k (List.mem_cons_of_mem _ hk)) hbad
    rcases hgo : loadScenesGo fs conv s (pre2 ++ i :: post) md.length
      with ⟨nv2, res⟩
    rw [hgo] at ih2
    cases res with
    | error e => simpa using ih2
    | ok lst => simp at ih2

theorem rangeSplit (n i : ℕ) (h : i < n) :
    List.range n = List.range i ++ i :: List.range' (i + 1) (n - i - 1) := by
  obtain ⟨k, rfl⟩ : ∃ k, n = i + k + 1 := ⟨n - i - 1, by omega⟩
  have h2 : i + k + 1 - i - 1 = k := by omega
  rw [h2, List.range_eq_range']
  have h3 : i + k + 1 = (k + 1) + i := by omega
  rw [h3, ← List.range'_append 0 i (k + 1) 1]
  congr 1
  · exact (List.range_eq_range' i).symm
  · simp only [Nat.zero_add, Nat.one_mul]
    rfl

theorem resizeRow_spec (w h : ℕ) (row : List ℚ) :
    (resizeRow w h row).length = row.length ∧
    (resizeRow w h row).getD 0 0 = row.getD 0 0 * ((w : ℚ) - 1) ∧
    (resizeRow w h row).getD 1 0 = row.getD 1 0 * ((h : ℚ) - 1) ∧
    ∀ c, 2 ≤ c → (resizeRow w h row)[c]? = row[c]? := by
  match row with
  | [] =>
    refine ⟨rfl, ?_, ?_, fun c _ => rfl⟩
    · simp [resizeRow]
    · simp [resizeRow]
  | [a] =>
    refine ⟨rfl, ?_, ?_, ?_⟩
    · simp [resizeRow]
    · simp [resizeRow]
    · intro c hc
      obtain ⟨c2, rfl⟩ : ∃ c2, c = c2 + 2 := ⟨c - 2, by omega⟩
      rfl
  | a :: b :: rest =>
    refine ⟨rfl, ?_, ?_, ?_⟩
    · simp [resizeRow]
    · simp [resizeRow]
    · intro c hc
      obtain ⟨c2, rfl⟩ : ∃ c2, c = c2 + 2 := ⟨c - 2, by omega⟩
      rfl

/-- C1: for every valid index, `__getitem__` returns `end_of_clip = True`
exactly when `process_index_mapping` marks the index as the last frame of
its clip and the dataset is not shuffled; in particular a shuffled dataset
always yields `end_of_clip = False` (line 138:
`end_of_clip = end_of_clip and not self.shuffled`). -/
theorem claim_end_of_clip_iff_last_frame_unshuffled (s : DatasetState)
    (index : ℕ) (h : index < s.len) (hpk : s.percepKeypoints2d.isSome = true) :
    ∃ r, getitem s index = .ok r ∧
      (r.endOfClip = true ↔
        (s.processIndexMapping index).2.2 = true ∧ s.shuffled = false) ∧
      (s.shuffled = true → r.endOfClip = false) := by
  obtain ⟨pk, hpk2⟩ := Option.isSome_iff_exists.mp hpk
  have hlt : ¬ index ≥ s.len := Nat.not_le.mpr h
  simp only [getitem, hpk2, if_neg hlt]
  refine ⟨_, rfl, ?_, ?_⟩
  · simp [Bool.and_eq_true, Bool.not_eq_true']
  · intro hs
    simp [hs]

/-- Witness for C1 at an explicit dataset state. -/
theorem claim_end_of_clip_iff_last_frame_unshuffled_witness :
    0 < sampleDataset.len ∧ sampleDataset.percepKeypoints2d.isSome = true ∧
    ∃ r, getitem sampleDataset 0 = .ok r ∧
      (r.endOfClip = true ↔
        (sampleDataset.processIndexMapping 0).2.2 = true ∧
        sampleDataset.shuffled = false) ∧
      (sampleDataset.shuffled = true → r.endOfClip = false) :=
  ⟨by decide, by decide,
    claim_end_of_clip_iff_last_frame_unshuffled sampleDataset 0
      (by decide) (by decide)⟩

/-- C5 counterexample: on an explicit one-view dataset, the `t_tensor`
returned by `__getitem__` has shape `(1, 3)`, not the documented
`(n_view, 3, 3) = (1, 3, 3)`: `get_extrinsic_t()` is a 3-vector, so
`torch.stack` over views yields a rank-2 tensor. -/
theorem claim_t_tensor_shape_counterexample :
    Except.map (fun r => r.tTensor.shape) (getitem sampleDataset 0)
      = .ok [1, 3] ∧
    Except.map (fun r => r.tTensor.shape) (getitem sampleDataset 0)
      ≠ .ok [1, 3, 3] := by
  refine ⟨rfl, ?_⟩
  intro hcontr
  rw [show Except.map (fun r => r.tTensor.shape) (getitem sampleDataset 0)
      = .ok [1, 3] from rfl] at hcontr
  simp at hcontr

/-- C5 (amended): for every valid index of a loaded dataset whose scene has
at least one camera view, the returned `t_tensor` has shape `(n_view, 3)`
(not `(n_view, 3, 3)` as the docstring states). -/
theorem claim_t_tensor_shape_n_view_3 (s : DatasetState) (index : ℕ)
    (p : FisheyeParameter) (ps : List FisheyeParameter)
    (h : index < s.len) (hpk : s.percepKeypoints2d.isSome = true)
    (hv : s.fisheyeParams.getD (s.processIndexMapping index).1 [] = p :: ps) :
    ∃ r, getitem s index = .ok r ∧
      r.tTensor.shape
        = [(s.fisheyeParams.getD (s.processIndexMapping index).1 []).length,
           3] := by
  obtain ⟨pk, hpk2⟩ := Option.isSome_iff_exists.mp hpk
  have hlt : ¬ index ≥ s.len := Nat.not_le.mpr h
  simp only [getitem, hpk2, if_neg hlt]
  refine ⟨_, rfl, ?_⟩
  rw [hv]
  simp [torchStack, extrinsicTTensor, torchTensorOfVec]

/-- Witness for the amended C5 at an explicit dataset state. -/
theorem claim_t_tensor_shape_n_view_3_witness :
    0 < sampleDataset.len ∧ sampleDataset.percepKeypoints2d.isSome = true ∧
    ∃ r, getitem sampleDataset 0 = .ok r ∧
      r.tTensor.shape
        = [(sampleDataset.fisheyeParams.getD
            (sampleDataset.processIndexMapping 0).1 []).length, 3] :=
  ⟨by decide, by decide,
    claim_t_tensor_shape_n_view_3 sampleDataset 0 _ _
      (by decide) (by decide) rfl⟩

/-- C10: `__getitem__` raises `StopIteration` for every index at or beyond
`len(self)`, and for every valid index the last returned component
`kw_data` is a list with one converted detection record per camera view of
the frame (the embedding types it as a list; the source annotation and
docstring call it a dict). -/
theorem claim_kw_data_list_and_stop_iteration (s : DatasetState)
    (index index2 : ℕ) (pk : List (List (List Detection)))
    (h : index < s.len) (hpk : s.percepKeypoints2d = some pk)
    (h2 : s.len ≤ index2) :
    getitem s index2 = .error .stopIteration ∧
    ∃ r, getitem s index = .ok r ∧
      r.kwData.length
        = ((s.imageList.getD (s.processIndexMapping index).1 []).getD
            (s.processIndexMapping index).2.1 []).length ∧
      ∀ v, v < r.kwData.length →
        r.kwData[v]?
          = some (((pk.getD (s.processIndexMapping index).1 []).getD v
              []).getD (s.processIndexMapping index).2.1 default) := by
  constructor
  · unfold getitem
    rw [if_pos h2]
  · have hlt : ¬ index ≥ s.len := Nat.not_le.mpr h
    simp only [getitem, hpk, if_neg hlt]
    refine ⟨_, rfl, ?_, ?_⟩
    · simp [torchStack]
    · intro v hv
      simp only [torchStack, List.length_map, List.headD_cons,
        List.length_range] at hv ⊢
      simp [List.getElem?_map, List.getElem?_range, hv]
      simp at hv
      simp [List.getElem?_range, hv]

/-- Witness for C10 at an explicit dataset state. -/
theorem claim_kw_data_list_and_stop_iteration_witness :
    0 < sampleDataset.len ∧
    sampleDataset.percepKeypoints2d = some [[[sampleDetection]]] ∧
    sampleDataset.len ≤ 5 ∧
    getitem sampleDataset 5 = .error .stopIteration ∧
    ∃ r, getitem sampleDataset 0 = .ok r ∧
      r.kwData.length
        = ((sampleDataset.imageList.getD
            (sampleDataset.processIndexMapping 0).1 []).getD
            (sampleDataset.processIndexMapping 0).2.1 []).length ∧
      ∀ v, v < r.kwData.length →
        r.kwData[v]?
          = some ((([[[sampleDetection]]].getD
              (sampleDataset.processIndexMapping 0).1 []).getD v
              []).getD (sampleDataset.processIndexMapping 0).2.1 default) := by
  have hmain := claim_kw_data_list_and_stop_iteration sampleDataset 0 5
    [[[sampleDetection]]] (by decide) rfl (by decide)
  exact ⟨by decide, rfl, by decide, hmain.1, hmain.2⟩

/-- C8: `load_perception_2d` succeeds exactly when, for every scene index
`i < n_scene`, the file `meta_path/scene_i/kps2d_paf.json` exists and holds
both the `convention` and the `data` key; on a failure the library
exception (`FileNotFoundError` for a missing file, `KeyError` for a missing
key) of the first failing scene propagates uncaught and
`self.percep_keypoints2d` is not set. -/
theorem claim_load_perception_2d_error_propagation
    (fs : String → Option Kps2dPafJson)
    (convert : List Detection → String → String → List Detection)
    (s : DatasetState) :
    ((load_perception_2d fs convert s).2 = none ↔
      ∀ i, i < s.nScene → sceneFileOk fs s.metaPath i = true) ∧
    (∀ e, (load_perception_2d fs convert s).2 = some e →
      (load_perception_2d fs convert s).1.percepKeypoints2d
        = s.percepKeypoints2d) ∧
    (∀ i, i < s.nScene →
      (∀ k, k < i → sceneFileOk fs s.metaPath k = true) →
      sceneFileOk fs s.metaPath i = false →
      (load_perception_2d fs convert s).2
        = some (sceneLibError fs s.metaPath i)) := by
  rcases hres : loadScenesGo fs convert s (List.range s.nScene) s.nViews
    with ⟨nv, res⟩
  have hgo := loadScenesGo_isOk fs convert s (List.range s.nScene) s.nViews
  rw [hres] at hgo
  cases res with
  | error e =>
    have heq : load_perception_2d fs convert s
        = ({ s with nViews := nv }, some e) := by
      unfold load_perception_2d
      rw [hres]
    have hgo2 : ((List.range s.nScene).all
        fun i => sceneFileOk fs s.metaPath i) = false := by
      rw [← hgo]; rfl
    refine ⟨?_, ?_, ?_⟩
    · rw [heq]
      constructor
      · intro hc; simp at hc
      · intro hall
        have hallb : ((List.range s.nScene).all
            fun i => sceneFileOk fs s.metaPath i) = true := by
          rw [List.all_eq_true]
          intro i hi
          exact hall i (List.mem_range.mp hi)
        rw [hgo2] at hallb
        exact absurd hallb (by simp)
    · intro e2 _
      rw [heq]
    · intro i hi hall hbad
      have herr := loadScenesGo_error_first fs convert s (List.range i) i
        (List.range' (i + 1) (s.nScene - i - 1)) s.nViews
        (fun k hk => hall k (List.mem_range.mp hk)) hbad
      rw [← rangeSplit s.nScene i hi, hres] at herr
      have herr2 : Except.error (α := List (List (List Detection))) e
          = Except.error (sceneLibError fs s.metaPath i) := herr
      injection herr2 with h3
      rw [heq, h3]
  | ok lst =>
    have heq : load_perception_2d fs convert s
        = ({ s with nViews := nv, percepKeypoints2d := some lst }, none) := by
      unfold load_perception_2d
      rw [hres]
    have hgo2 : ((List.range s.nScene).all
        fun i => sceneFileOk fs s.metaPath i) = true := by
      rw [← hgo]; rfl
    rw [List.all_eq_true] at hgo2
    refine ⟨?_, ?_, ?_⟩
    · rw [heq]
      exact ⟨fun _ i hi => hgo2 i (List.mem_range.mpr hi), fun _ => rfl⟩
    · intro e2 he2
      rw [heq] at he2
      simp at he2
    · intro i hi hall hbad
      exact absurd (hgo2 i (List.mem_range.mpr hi)) (by simp [hbad])

/-- Witness for C8: with a filesystem holding no files, scene 0 fails, the
propagated error is the library error of scene 0, and the perception
attribute is unchanged. -/
theorem claim_load_perception_2d_error_propagation_witness :
    0 < sampleDataset.nScene ∧
    sceneFileOk emptyFs sampleDataset.metaPath 0 = false ∧
    (load_perception_2d emptyFs convertId sampleDataset).2
      = some (sceneLibError emptyFs sampleDataset.metaPath 0) ∧
    (load_perception_2d emptyFs convertId sampleDataset).1.percepKeypoints2d
      = sampleDataset.percepKeypoints2d := by
  have hthm := claim_load_perception_2d_error_propagation emptyFs convertId
    sampleDataset
  have herr := hthm.2.2 0 (by decide)
    (fun k hk => absurd hk (by omega)) (by decide)
  exact ⟨by decide, by decide, herr, hthm.2.1 _ herr⟩

/-- C7: the resize step of `load_perception_2d` multiplies only column 0 of
each non-empty per-joint candidate array by `width - 1` and column 1 by
`height - 1`; all other columns, empty arrays and the `pafs` entries are
unchanged, and every array keeps its shape. -/
theorem claim_resize_scales_first_two_columns (w h : ℕ)
    (convertDetections : List Detection) (nDet : ℕ)
    (hn : nDet = convertDetections.length) (i : ℕ) (d : Detection)
    (hd : convertDetections[i]? = some d) :
    (resizeStep w h nDet convertDetections).length
      = convertDetections.length ∧
    ∃ d2, (resizeStep w h nDet convertDetections)[i]? = some d2 ∧
      d2.pafs = d.pafs ∧
      d2.joints.length = d.joints.length ∧
      ∀ (j : ℕ) (arr : List (List ℚ)), d.joints[j]? = some arr →
        ∃ arr2, d2.joints[j]? = some arr2 ∧
          (arr = [] → arr2 = arr) ∧
          arr2.length = arr.length ∧
          ∀ (k : ℕ) (row : List ℚ), arr[k]? = some row →
            ∃ row2, arr2[k]? = some row2 ∧
              row2.length = row.length ∧
              row2.getD 0 0 = row.getD 0 0 * ((w : ℚ) - 1) ∧
              row2.getD 1 0 = row.getD 1 0 * ((h : ℚ) - 1) ∧
              ∀ (c : ℕ), 2 ≤ c → row2[c]? = row[c]? := by
  have hi : i < convertDetections.length :=
    (List.getElem?_eq_some_iff.mp hd).1
  have hiN : i < nDet := by omega
  constructor
  · simp [resizeStep, List.length_mapIdx]
  · refine ⟨resizeDetection w h d, ?_, rfl, by simp [resizeDetection], ?_⟩
    · simp [resizeStep, List.getElem?_mapIdx, hd, hiN]
    · intro j arr hj
      refine ⟨resizeJointArray w h arr, ?_, ?_, ?_, ?_⟩
      · simp [resizeDetection, List.getElem?_map, hj]
      · intro harr
        subst harr
        rfl
      · by_cases ha : arr.length > 0 <;> simp [resizeJointArray, ha]
      · intro k row hk
        have hlen : arr.length > 0 := by
          have := (List.getElem?_eq_some_iff.mp hk).1
          omega
        refine ⟨resizeRow w h row, ?_, ?_⟩
        · simp [resizeJointArray, hlen, List.getElem?_map, hk]
        · exact ⟨(resizeRow_spec w h row).1, (resizeRow_spec w h row).2.1,
            (resizeRow_spec w h row).2.2.1, (resizeRow_spec w h row).2.2.2⟩

/-- Witness for C7 at an explicit record: width 3, height 5, one frame, one
joint class with a single candidate row `[1, 2, 7]`. -/
theorem claim_resize_scales_first_two_columns_witness :
    (1 : ℕ) = [sampleDetection].length ∧
    ([sampleDetection] : List Detection)[0]? = some sampleDetection ∧
    (resizeStep 3 5 1 [sampleDetection]).length = 1 ∧
    ∃ d2, (resizeStep 3 5 1 [sampleDetection])[0]? = some d2 ∧
      d2.pafs = sampleDetection.pafs ∧
      d2.joints.length = sampleDetection.joints.length ∧
      ∀ (j : ℕ) (arr : List (List ℚ)), sampleDetection.joints[j]? = some arr →
        ∃ arr2, d2.joints[j]? = some arr2 ∧
          (arr = [] → arr2 = arr) ∧
          arr2.length = arr.length ∧
          ∀ (k : ℕ) (row : List ℚ), arr[k]? = some row →
            ∃ row2, arr2[k]? = some row2 ∧
              row2.length = row.length ∧
              row2.getD 0 0 = row.getD 0 0 * ((3 : ℚ) - 1) ∧
              row2.getD 1 0 = row.getD 1 0 * ((5 : ℚ) - 1) ∧
              ∀ (c : ℕ), 2 ≤ c → row2[c]? = row[c]? := by
  have hthm := claim_resize_scales_first_two_columns 3 5 [sampleDetection] 1
    rfl 0 sampleDetection rfl
  exact ⟨rfl, rfl, hthm.1, hthm.2⟩

/-- C3: in `infer_single_img`, every bbox whose score exceeds the threshold
and on whose crop the pose model returns landmarks contributes the entry
whose keypoints are
`(landmark.x * img.shape[1] + bbox[0], landmark.y * img.shape[0] + bbox[1],
landmark.visibility)` per landmark (with `img` the crop); and every entry
of the returned list arises that way, so bboxes at or below the threshold
or without detected landmarks contribute no entry. -/
theorem claim_infer_single_img_rescale (est : MediapipeEstimator)
    (imgArr : Image) (bl : List Bbox) :
    (∀ (b : Bbox) (lms : List Landmark), b ∈ bl → b.score > est.bbox_thr →
      est.process imgArr b = some lms →
      (⟨b, lms.map (fun lm =>
          (lm.x * (cropWidth imgArr b : ℚ) + b.x1,
           lm.y * (cropHeight imgArr b : ℚ) + b.y1,
           lm.visibility))⟩ : PersonResult)
        ∈ infer_single_img est imgArr bl) ∧
    (∀ p ∈ infer_single_img est imgArr bl,
      p.bbox ∈ bl ∧ p.bbox.score > est.bbox_thr ∧
      ∃ lms, est.process imgArr p.bbox = some lms ∧
        p.keypoints = lms.map (fun lm =>
          (lm.x * (cropWidth imgArr p.bbox : ℚ) + p.bbox.x1,
           lm.y * (cropHeight imgArr p.bbox : ℚ) + p.bbox.y1,
           lm.visibility))) := by
  constructor
  · intro b lms hmem hs hp
    exact infer_single_img_mem_intro est imgArr bl b lms hmem hs hp
  · intro p hp
    exact infer_single_img_mem_elim est imgArr bl p hp

/-- Witness for C3 at an explicit estimator, image and bbox. -/
theorem claim_infer_single_img_rescale_witness :
    sampleBbox ∈ [sampleBbox] ∧ sampleBbox.score > estOne.bbox_thr ∧
    estOne.process sampleImage sampleBbox = some [⟨1/2, 1/2, 1⟩] ∧
    (⟨sampleBbox, rescaled sampleImage sampleBbox [⟨1/2, 1/2, 1⟩]⟩ :
        PersonResult)
      ∈ infer_single_img estOne sampleImage [sampleBbox] := by
  refine ⟨List.mem_cons_self _ _, by decide, rfl, ?_⟩
  exact (claim_infer_single_img_rescale estOne sampleImage [sampleBbox]).1
    sampleBbox [⟨1/2, 1/2, 1⟩] (List.mem_cons_self _ _) (by decide) rfl

/-- C2: the shape contract of `infer_array`: a frame with at least one
positive-score bbox yields a keypoints entry of `n_human` rows (as many as
the input bboxes of the frame), each of shape `(n_kps, 3)` with
`n_kps = get_keypoint_num('mediapipe_body')`, and a bbox entry of `n_human`
bboxes of 5 values each; a frame without any positive-score bbox yields two
empty lists.  The oracle hypothesis records that MediaPipe returns
landmark lists of the convention's size (numpy would otherwise raise on the
row assignment). -/
theorem claim_infer_array_shape_contract (est : MediapipeEstimator)
    (imageArray : List Image) (bboxList : List (List Bbox))
    (returnHeatmap : Bool) (i : ℕ) (img : Image) (bxs : List Bbox)
    (hlen : imageArray.length = bboxList.length)
    (horacle : ∀ (im : Image) (b : Bbox) (lms : List Landmark),
      est.process im b = some lms →
      lms.length = get_keypoint_num est.get_keypoints_convention_name)
    (hi : imageArray[i]? = some img) (hb : bboxList[i]? = some bxs) :
    (infer_array est imageArray bboxList returnHeatmap).1.length
      = imageArray.length ∧
    (infer_array est imageArray bboxList returnHeatmap).2.2.length
      = imageArray.length ∧
    ∃ fk fb,
      (infer_array est imageArray bboxList returnHeatmap).1[i]? = some fk ∧
      (infer_array est imageArray bboxList returnHeatmap).2.2[i]? = some fb ∧
      ((bxs.filter (fun b => b.score > 0)).length > 0 →
        fk.length = bxs.length ∧
        (∀ row ∈ fk,
          row.length = get_keypoint_num est.get_keypoints_convention_name) ∧
        fb.length = bxs.length ∧
        ∀ b2 ∈ fb, b2.toList.length = 5) ∧
      ((bxs.filter (fun b => b.score > 0)).length = 0 →
        fk = [] ∧ fb = []) := by
  refine ⟨?_, ?_, ?_⟩
  · simp [infer_array, hlen]
  · simp [infer_array, hlen]
  · obtain ⟨h1, h2⟩ := inferArrayComponents est imageArray bboxList
      returnHeatmap i img bxs hi hb
    refine ⟨_, _, h1, h2, ?_, ?_⟩
    · intro hpos
      simp only [inferArrayFrame]
      rw [if_pos hpos]
      refine ⟨?_, ?_, ?_, ?_⟩
      · rw [(assignRows_length _ _ _ _).1, List.length_replicate]
      · intro row hrow
        rcases assignRows_mem_fst _ _ _ _ row hrow with hmem | ⟨r, hr, hre⟩
        · rw [List.eq_of_mem_replicate hmem]
          simp [zeroKps]
        · obtain ⟨_, _, lms, hplms, hkeq⟩ :=
            infer_single_img_mem_elim est img _ r hr
          rw [hre, hkeq]
          simp only [rescaled, List.length_map]
          exact horacle _ _ _ hplms
      · rw [(assignRows_length _ _ _ _).2, List.length_replicate]
      · intro b2 _
        rfl
    · intro hzero
      simp only [inferArrayFrame]
      rw [if_neg (by omega)]
      exact ⟨rfl, rfl⟩

/-- Witness for C2 at an explicit estimator whose pose model always
returns 33 landmarks, on one frame with one positive-score bbox. -/
theorem claim_infer_array_shape_contract_witness :
    ([sampleImage] : List Image).length = ([[sampleBbox]] : List (List Bbox)).length ∧
    (∀ (im : Image) (b : Bbox) (lms : List Landmark),
      est33.process im b = some lms →
      lms.length = get_keypoint_num est33.get_keypoints_convention_name) ∧
    (infer_array est33 [sampleImage] [[sampleBbox]] false).1.length = 1 ∧
    (infer_array est33 [sampleImage] [[sampleBbox]] false).2.2.length = 1 ∧
    ∃ fk fb,
      (infer_array est33 [sampleImage] [[sampleBbox]] false).1[0]? = some fk ∧
      (infer_array est33 [sampleImage] [[sampleBbox]] false).2.2[0]?
        = some fb ∧
      (([sampleBbox].filter (fun b => b.score > 0)).length > 0 →
        fk.length = ([sampleBbox] : List Bbox).length ∧
        (∀ row ∈ fk,
          row.length = get_keypoint_num est33.get_keypoints_convention_name) ∧
        fb.length = ([sampleBbox] : List Bbox).length ∧
        ∀ b2 ∈ fb, b2.toList.length = 5) ∧
      (([sampleBbox].filter (fun b => b.score > 0)).length = 0 →
        fk = [] ∧ fb = []) := by
  have horacle : ∀ (im : Image) (b : Bbox) (lms : List Landmark),
      est33.process im b = some lms →
      lms.length = get_keypoint_num est33.get_keypoints_convention_name := by
    intro im b lms hp
    have hlist : (some (List.replicate 33 (⟨0, 0, 1⟩ : Landmark))) = some lms := hp
    injection hlist with h2
    rw [← h2, List.length_replicate]
    rfl
  exact ⟨rfl, horacle,
    claim_infer_array_shape_contract est33 [sampleImage] [[sampleBbox]] false 0
      sampleImage [sampleBbox] rfl horacle rfl rfl⟩

/-- C6: in a frame with at least one positive-score bbox, every row of the
per-frame keypoints array whose index is at least `len(pose_results)` stays
the all-zero row (so its confidence column is 0, marking the keypoints
invalid), and likewise for the per-frame bbox array. -/
theorem claim_infer_array_zero_padding (est : MediapipeEstimator)
    (imageArray : List Image) (bboxList : List (List Bbox))
    (returnHeatmap : Bool) (i j : ℕ) (img : Image) (bxs : List Bbox)
    (hi : imageArray[i]? = some img) (hb : bboxList[i]? = some bxs)
    (hpos : (bxs.filter (fun b => b.score > 0)).length > 0)
    (hj1 : (infer_single_img est img
      (bxs.filter (fun b => b.score > 0))).length ≤ j)
    (hj2 : j < bxs.length) :
    ∃ fk fb,
      (infer_array est imageArray bboxList returnHeatmap).1[i]? = some fk ∧
      (infer_array est imageArray bboxList returnHeatmap).2.2[i]? = some fb ∧
      fk[j]? = some (zeroKps (get_keypoint_num
        est.get_keypoints_convention_name)) ∧
      fb[j]? = some zeroBbox := by
  obtain ⟨h1, h2⟩ := inferArrayComponents est imageArray bboxList
    returnHeatmap i img bxs hi hb
  refine ⟨_, _, h1, h2, ?_, ?_⟩
  · simp only [inferArrayFrame]
    rw [if_pos hpos]
    rw [(assignRows_getElem?_ge _ _ _ 0 j (by omega)).1,
      List.getElem?_replicate, if_pos hj2]
  · simp only [inferArrayFrame]
    rw [if_pos hpos]
    rw [(assignRows_getElem?_ge _ _ _ 0 j (by omega)).2,
      List.getElem?_replicate, if_pos hj2]

/-- Witness for C6: a pose model that detects nothing leaves every row of
both arrays zero. -/
theorem claim_infer_array_zero_padding_witness :
    ([sampleImage] : List Image)[0]? = some sampleImage ∧
    ([[sampleBbox]] : List (List Bbox))[0]? = some [sampleBbox] ∧
    ([sampleBbox].filter (fun b => b.score > 0)).length > 0 ∧
    (infer_single_img estNone sampleImage
      ([sampleBbox].filter (fun b => b.score > 0))).length ≤ 0 ∧
    0 < ([sampleBbox] : List Bbox).length ∧
    ∃ fk fb,
      (infer_array estNone [sampleImage] [[sampleBbox]] false).1[0]?
        = some fk ∧
      (infer_array estNone [sampleImage] [[sampleBbox]] false).2.2[0]?
        = some fb ∧
      fk[0]? = some (zeroKps (get_keypoint_num
        estNone.get_keypoints_convention_name)) ∧
      fb[0]? = some zeroBbox := by
  refine ⟨rfl, rfl, by decide, by decide, by decide, ?_⟩
  exact claim_infer_array_zero_padding estNone [sampleImage] [[sampleBbox]]
    false 0 0 sampleImage [sampleBbox] rfl rfl (by decide) (by decide)
    (by decide)

/-- C9: `infer_array`, `infer_frames` and `infer_video` each return a
3-tuple whose second component is `None` (no heatmap is ever produced), and
the `return_heatmap` argument has no effect on any result. -/
theorem claim_heatmap_always_none (est : MediapipeEstimator)
    (imageArray : List Image)
    (bboxList bboxList2 bboxList3 : List (List Bbox))
    (imread : String → Image) (framePathList : List String)
    (loadBatchSize : Option ℕ) (videoToArray : String → List Image)
    (videoPath : String) (returnHeatmap : Bool)
    (r : List (List (List Kp2d)) × Option Unit × List (List Bbox))
    (hr : infer_frames est imread framePathList bboxList2 returnHeatmap
      loadBatchSize = .ok r) :
    infer_array est imageArray bboxList returnHeatmap
      = infer_array est imageArray bboxList false ∧
    (infer_array est imageArray bboxList returnHeatmap).2.1 = none ∧
    infer_frames est imread framePathList bboxList2 returnHeatmap
        loadBatchSize
      = infer_frames est imread framePathList bboxList2 false loadBatchSize ∧
    r.2.1 = none ∧
    infer_video est videoToArray videoPath bboxList3 returnHeatmap
      = infer_video est videoToArray videoPath bboxList3 false ∧
    (infer_video est videoToArray videoPath bboxList3 returnHeatmap).2.1
      = none := by
  refine ⟨rfl, rfl, rfl, ?_, rfl, rfl⟩
  simp only [infer_frames] at hr
  by_cases hb : loadBatchSize.getD framePathList.length = 0
  · rw [if_pos hb] at hr
    exact absurd hr (by simp)
  · rw [if_neg hb] at hr
    injection hr with h2
    rw [← h2]

/-- Witness for C9 at explicit inputs where `infer_frames` succeeds. -/
theorem claim_heatmap_always_none_witness :
    infer_frames estNone sampleImread ["f0"] [[]] true none
      = .ok ([[]], none, [[]]) ∧
    infer_array estNone [sampleImage] [[]] true
      = infer_array estNone [sampleImage] [[]] false ∧
    (infer_array estNone [sampleImage] [[]] true).2.1 = none ∧
    infer_frames estNone sampleImread ["f0"] [[]] true none
      = infer_frames estNone sampleImread ["f0"] [[]] false none ∧
    (([[]], none, [[]]) :
      List (List (List Kp2d)) × Option Unit × List (List Bbox)).2.1 = none ∧
    infer_video estNone (fun _ => [sampleImage]) "v0" [[]] true
      = infer_video estNone (fun _ => [sampleImage]) "v0" [[]] false ∧
    (infer_video estNone (fun _ => [sampleImage]) "v0" [[]] true).2.1
      = none := by
  have hr : infer_frames estNone sampleImread ["f0"] [[]] true none
      = .ok ([[]], none, [[]]) := rfl
  have hthm := claim_heatmap_always_none estNone [sampleImage] [[]] [[]] [[]]
    sampleImread ["f0"] none (fun _ => [sampleImage]) "v0" true
    ([[]], none, [[]]) hr
  exact ⟨hr, hthm.1, hthm.2.1, hthm.2.2.1, hthm.2.2.2.1, hthm.2.2.2.2.1,
    hthm.2.2.2.2.2⟩

theorem mapZipFrame (est : MediapipeEstimator) (imread : String → Image)
    (l₁ : List String) (l₂ : List (List Bbox)) :
    infer_array est (l₁.map imread) l₂ false
      = (((l₁.zip l₂).map (frameFn est imread)).map Prod.fst, none,
         ((l₁.zip l₂).map (frameFn est imread)).map Prod.snd) := by
  simp [infer_array, List.zip_map_left, List.map_map, frameFn,
    Function.comp, Prod.map]

theorem chunkMapFlatten {α β : Type} (L : List α) (n b : ℕ) (g : α → β)
    (hL : L.length = n) (hb : 1 ≤ b) :
    ((chunkStarts n b).map (fun s => ((L.drop s).take b).map g)).flatten
      = L.map g := by
  have h1 : (chunkStarts n b).map (fun s => ((L.drop s).take b).map g)
      = ((chunkStarts n b).map (fun s => (L.drop s).take b)).map
          (List.map g) := by
    rw [List.map_map]
    rfl
  rw [h1, ← List.map_flatten, chunksFlattenOfLength L n b hL hb]

theorem infer_frames_some_eq (est : MediapipeEstimator)
    (imread : String → Image) (framePathList : List String)
    (bboxList : List (List Bbox)) (returnHeatmap : Bool) (b : ℕ)
    (hb : 1 ≤ b) (hlen : framePathList.length = bboxList.length) :
    infer_frames est imread framePathList bboxList returnHeatmap (some b)
      = .ok ((((framePathList.zip bboxList).map
            (frameFn est imread)).map Prod.fst, none,
          ((framePathList.zip bboxList).map
            (frameFn est imread)).map Prod.snd)) := by
  have hG : (framePathList.zip bboxList).length = framePathList.length := by
    rw [List.length_zip, hlen, Nat.min_self]
  have hbatch : ∀ s, infer_array est
      ((pySlice framePathList s (min framePathList.length (s + b))).map imread)
      (pySlice bboxList s (min framePathList.length (s + b))) false
      = (((((framePathList.zip bboxList).drop s).take b).map
            (frameFn est imread)).map Prod.fst, none,
         ((((framePathList.zip bboxList).drop s).take b).map
            (frameFn est imread)).map Prod.snd) := by
    intro s
    have h1 : pySlice framePathList s (min framePathList.length (s + b))
        = (framePathList.drop s).take b := pySliceMin framePathList s b
    have h2 : pySlice bboxList s (min framePathList.length (s + b))
        = (bboxList.drop s).take b := by
      rw [hlen]
      exact pySliceMin bboxList s b
    rw [h1, h2, mapZipFrame, zipTake, zipDrop]
  simp only [infer_frames, Option.getD_some]
  rw [if_neg (by omega)]
  simp only [hbatch]
  simp only [List.map_map, Function.comp_def]
  rw [chunkMapFlatten (framePathList.zip bboxList) framePathList.length b
      _ hG hb,
    chunkMapFlatten (framePathList.zip bboxList) framePathList.length b
      _ hG hb]

theorem infer_frames_none_eq (est : MediapipeEstimator)
    (imread : String → Image) (framePathList : List String)
    (bboxList : List (List Bbox)) (returnHeatmap : Bool)
    (hne : framePathList.length ≠ 0)
    (hlen : framePathList.length = bboxList.length) :
    infer_frames est imread framePathList bboxList returnHeatmap none
      = .ok ((((framePathList.zip bboxList).map
            (frameFn est imread)).map Prod.fst, none,
          ((framePathList.zip bboxList).map
            (frameFn est imread)).map Prod.snd)) := by
  simp only [infer_frames, Option.getD_none]
  rw [if_neg hne]
  have hdiv : (framePathList.length + framePathList.length - 1)
      / framePathList.length = 1 :=
    Nat.div_eq_of_lt_le (by omega) (by omega)
  have hrange : List.range ((framePathList.length + framePathList.length - 1)
      / framePathList.length) = [0] := by
    rw [hdiv]
    rfl
  have h1 : pySlice framePathList 0
      (min framePathList.length (0 + framePathList.length))
      = (framePathList.drop 0).take framePathList.length :=
    pySliceMin framePathList 0 framePathList.length
  have h2 : pySlice bboxList 0
      (min framePathList.length (0 + framePathList.length))
      = (bboxList.drop 0).take framePathList.length := by
    rw [hlen]
    exact pySliceMin bboxList 0 bboxList.length
  simp only [chunkStarts, hrange, List.map_cons, List.map_nil, Nat.zero_mul]
  rw [h1, h2, List.drop_zero, List.drop_zero, List.take_length, hlen,
    List.take_length, mapZipFrame]
  simp

/-- C4 counterexample: on the empty frame list, `load_batch_size=1` returns
empty results while `load_batch_size=None` makes `load_batch_size` equal 0
and Python `range(0, 0, 0)` raises `ValueError`, so the two runs do not
agree. -/
theorem claim_infer_frames_chunking_counterexample :
    infer_frames estNone sampleImread ([] : List String) [] false (some 1)
      = .ok ([], none, []) ∧
    infer_frames estNone sampleImread ([] : List String) [] false none
      = .error .valueError ∧
    infer_frames estNone sampleImread ([] : List String) [] false (some 1)
      ≠ infer_frames estNone sampleImread ([] : List String) [] false none := by
  refine ⟨rfl, rfl, ?_⟩
  intro hcontr
  rw [show infer_frames estNone sampleImread ([] : List String) [] false
        (some 1) = .ok ([], none, []) from rfl,
    show infer_frames estNone sampleImread ([] : List String) [] false none
        = .error .valueError from rfl] at hcontr
  simp at hcontr

/-- C4 (amended): for every NONEMPTY frame list with matching bbox list and
every `load_batch_size` `b >= 1`, `infer_frames` partitions the frames into
consecutive chunks `[start, min(len, start + b))` that cover every frame
exactly once in order, and the concatenated batch results equal those of a
single run with `load_batch_size=None`.  (On an empty frame list the `None`
run raises `ValueError` — `range` step 0 — while any `b >= 1` returns empty
results, so the original claim fails there.) -/
theorem claim_infer_frames_chunking_equivalence (est : MediapipeEstimator)
    (imread : String → Image) (framePathList : List String)
    (bboxList : List (List Bbox)) (returnHeatmap : Bool) (b : ℕ)
    (hb : 1 ≤ b) (hne : framePathList ≠ [])
    (hlen : framePathList.length = bboxList.length) :
    infer_frames est imread framePathList bboxList returnHeatmap (some b)
      = infer_frames est imread framePathList bboxList returnHeatmap none ∧
    ((chunkStarts framePathList.length b).map
      (fun s => pySlice framePathList s
        (min framePathList.length (s + b)))).flatten = framePathList := by
  have hn : framePathList.length ≠ 0 := by
    intro h
    exact hne (List.length_eq_zero.mp h)
  constructor
  · rw [infer_frames_some_eq est imread framePathList bboxList returnHeatmap
        b hb hlen,
      infer_frames_none_eq est imread framePathList bboxList returnHeatmap
        hn hlen]
  · have hfun : (fun s => pySlice framePathList s
        (min framePathList.length (s + b)))
        = fun s => (framePathList.drop s).take b :=
      funext (fun s => pySliceMin framePathList s b)
    rw [hfun]
    exact chunksFlattenOfLength framePathList framePathList.length b rfl hb

/-- Witness for the amended C4 at an explicit one-frame input. -/
theorem claim_infer_frames_chunking_equivalence_witness :
    (1 : ℕ) ≤ 1 ∧ (["f0"] : List String) ≠ [] ∧
    (["f0"] : List String).length = ([[]] : List (List Bbox)).length ∧
    (infer_frames estNone sampleImread ["f0"] [[]] false (some 1)
      = infer_frames estNone sampleImread ["f0"] [[]] false none ∧
    ((chunkStarts (["f0"] : List String).length 1).map
      (fun s => pySlice ["f0"] s
        (min (["f0"] : List String).length (s + 1)))).flatten = ["f0"]) :=
  ⟨le_refl 1, by simp, rfl,
    claim_infer_frames_chunking_equivalence estNone sampleImread ["f0"] [[]]
      false 1 (le_refl 1) (by simp) rfl⟩

end XrMocap
